import Mathlib

/-!
# Verification of `generate_post.py`

A shallow embedding of the single-file content-publishing script
`src/generate_post.py` and proofs about it.

Strings are modelled as `List Char` (Python strings are sequences of code
points, and Python slicing/`in`/`count` operate on code points).  Network
calls are modelled by environments that record, for each external call, the
outcome the remote service produces (`none` = the call raises an exception,
`some v` = it returns `v`); the script's control flow around those outcomes
is translated faithfully.  The module-level configuration globals
(`PRIMARY_KEYWORD`, `AFF_LINK`, presence of `OPENAI_API_KEY` / `HF_TOKEN`)
become explicit parameters.
-/

set_option maxRecDepth 20000

namespace GeneratePost

/-- Code points of a string literal (the `List Char` model of a Python string). -/
def str (s : String) : List Char := s.data

/-- Python `pat in s` (substring containment): some suffix of `s` has `pat`
as a prefix. -/
def containsSub : List Char → List Char → Bool
  | [], pat => pat.isEmpty
  | c :: rest, pat => pat.isPrefixOf (c :: rest) || containsSub rest pat

/-- Number of positions of `s` at which `pat` starts (for a pattern that
cannot overlap itself, such as the completion marker, this equals Python
`s.count(pat)`). -/
def countSub : List Char → List Char → Nat
  | [], _ => 0
  | c :: rest, pat => (if pat.isPrefixOf (c :: rest) then 1 else 0) + countSub rest pat

/-- The characters Python `str.strip()` removes from both ends. -/
def isPySpace (c : Char) : Bool :=
  c = ' ' || c = '\t' || c = '\n' || c = '\r' || c = '\x0b' || c = '\x0c'

/-- Python `l.strip()`. -/
def pyStrip (l : List Char) : List Char :=
  ((l.dropWhile isPySpace).reverse.dropWhile isPySpace).reverse

/-- Worker for `splitlines`: accumulates the current line (reversed) and
splits at `\r\n`, `\n` or `\r` boundaries, with no empty final line after a
trailing boundary (Python `str.splitlines()` semantics on the common
boundary characters). -/
def splitlinesGo : List Char → List Char → List (List Char)
  | [], acc => [acc.reverse]
  | '\r' :: '\n' :: rest, acc =>
      acc.reverse :: (if rest.isEmpty then [] else splitlinesGo rest [])
  | '\n' :: rest, acc =>
      acc.reverse :: (if rest.isEmpty then [] else splitlinesGo rest [])
  | '\r' :: rest, acc =>
      acc.reverse :: (if rest.isEmpty then [] else splitlinesGo rest [])
  | c :: rest, acc => splitlinesGo rest (c :: acc)

/-- Python `txt.splitlines()` (on the `\n`, `\r\n`, `\r` boundaries). -/
def splitlines (s : List Char) : List (List Char) :=
  if s.isEmpty then [] else splitlinesGo s []

/-- Python `body.split("\n\n")`: left-to-right, non-overlapping split on the
literal separator, keeping empty pieces. -/
def splitBlank : List Char → List Char → List (List Char)
  | [], acc => [acc.reverse]
  | '\n' :: '\n' :: rest, acc => acc.reverse :: splitBlank rest []
  | c :: rest, acc => splitBlank rest (c :: acc)

/-- Python `"\n".join(ls)`. -/
def joinNl (ls : List (List Char)) : List Char :=
  List.intercalate ['\n'] ls

/-- The literal completion marker `<!-- AUTO_GENERATED -->`. -/
def marker : List Char := str "<!-- AUTO_GENERATED -->"

/-! ## The local fallback generator (`fallback_generate`)

`fallback_generate` ignores its `prompt` argument and reads the globals
`PRIMARY_KEYWORD` and `AFF_LINK`; those globals are the two parameters
below. -/

/-- `title = f"{PRIMARY_KEYWORD} — A practical guide"`. -/
def fallbackTitle (kw : List Char) : List Char :=
  kw ++ str " — A practical guide"

/-- The `body` string built by the three `body` assignments of
`fallback_generate`. -/
def fallbackBody (kw aff : List Char) : List Char :=
  str "<h2>Introduction</h2><p>This article provides a concise overview for '"
    ++ kw ++ str "'.</p>"
    ++ str "<h2>Top picks</h2><ul><li>Tool A — Good for small teams</li><li>Tool B — Good for enterprise</li></ul>"
    ++ str "<p>For more details and an affiliate offer, visit " ++ aff ++ str "</p>"

/-- `fallback_generate`: `f"{title}\n\n{body}\n\n<!-- AUTO_GENERATED -->"`. -/
def fallback_generate (kw aff : List Char) : List Char :=
  fallbackTitle kw ++ str "\n\n" ++ fallbackBody kw aff ++ str "\n\n" ++ marker

/-- First line of a text: the characters before the first `'\n'`. -/
def firstLine (s : List Char) : List Char :=
  s.takeWhile (fun c => c ≠ '\n')

/-- Everything after the first line (including the terminating newline
characters), `[]` if the text has a single line. -/
def afterFirstLine (s : List Char) : List Char :=
  s.dropWhile (fun c => c ≠ '\n')

/-! ## URL quoting (`requests.utils.quote`, i.e. `urllib.parse.quote` with
`safe='/'`): each character is UTF-8 encoded and every byte outside
`ALWAYS_SAFE ∪ {'/'}` is percent-encoded with uppercase hex digits. -/

/-- UTF-8 bytes of one code point. -/
def utf8Bytes (c : Char) : List Nat :=
  let n := c.toNat
  if n < 0x80 then [n]
  else if n < 0x800 then [0xC0 + n / 64, 0x80 + n % 64]
  else if n < 0x10000 then [0xE0 + n / 4096, 0x80 + n / 64 % 64, 0x80 + n % 64]
  else [0xF0 + n / 262144, 0x80 + n / 4096 % 64, 0x80 + n / 64 % 64, 0x80 + n % 64]

/-- Bytes `quote` leaves unescaped: ASCII letters, digits, `_.-~` and the
`safe` character `/`. -/
def quoteSafeByte (b : Nat) : Bool :=
  (48 ≤ b && b ≤ 57) || (65 ≤ b && b ≤ 90) || (97 ≤ b && b ≤ 122) ||
    b = 95 || b = 46 || b = 45 || b = 126 || b = 47

/-- Uppercase hexadecimal digit for `n < 16`. -/
def hexDigit (n : Nat) : Char :=
  if n < 10 then Char.ofNat (48 + n) else Char.ofNat (55 + n)

/-- Percent-encoding of a single byte, or the byte itself if safe. -/
def quoteByte (b : Nat) : List Char :=
  if quoteSafeByte b then [Char.ofNat b]
  else ['%', hexDigit (b / 16), hexDigit (b % 16)]

/-- `requests.utils.quote(s)`. -/
def quote (s : List Char) : List Char :=
  ((s.map utf8Bytes).flatten.map quoteByte).flatten

/-! ## Content generation (`call_hf`, `generate_content`)

The outcome of each network call is supplied by a `GenEnv`: `none` means
the call raises (any network/HTTP/parsing exception), `some t` means the
request/response round trip yields the text `t`.  The configuration globals
`OPENAI_KEY` and `HF_TOKEN` are modelled by their presence flags, and
`PRIMARY_KEYWORD` / `AFF_LINK` by the `kw` / `aff` parameters. -/

/-- Which generation tier a run used or attempted. -/
inductive Tier
  | openai
  | hf
  | fallbackLocal
deriving DecidableEq, Repr

/-- Environment for one run of the generator. -/
structure GenEnv where
  /-- `OPENAI_API_KEY` is set. -/
  openaiKey : Bool
  /-- `HF_TOKEN` is set. -/
  hfToken : Bool
  /-- Outcome of the `call_openai` network call (`none` = raises). -/
  openaiResult : Option (List Char)
  /-- Outcome of the Hugging Face network call and response parse
  (`none` = raises). -/
  hfResult : Option (List Char)
deriving DecidableEq, Repr

/-- `call_hf`: without `HF_TOKEN` it returns `fallback_generate(prompt)`
directly (no network call); with a token it performs the inference request,
whose outcome is `env.hfResult`.  Returns the result (`none` = the call
raised) together with the tiers attempted. -/
def call_hf (env : GenEnv) (kw aff : List Char) : Option (List Char) × List Tier :=
  if !env.hfToken then (some (fallback_generate kw aff), [Tier.fallbackLocal])
  else
    match env.hfResult with
    | some t => (some t, [Tier.hf])
    | none => (none, [Tier.hf])

/-- `generate_content`: inside a single `try`, call `call_openai` when
`OPENAI_KEY` is set, otherwise `call_hf`; any exception is caught and
answered with `fallback_generate(prompt)`.  Returns the generated text and
the list of tiers attempted, in order. -/
def generate_content (env : GenEnv) (kw aff : List Char) : List Char × List Tier :=
  if env.openaiKey then
    match env.openaiResult with
    | some t => (t, [Tier.openai])
    | none => (fallback_generate kw aff, [Tier.openai, Tier.fallbackLocal])
  else
    match call_hf env kw aff with
    | (some t, tr) => (t, tr)
    | (none, tr) => (fallback_generate kw aff, tr ++ [Tier.fallbackLocal])

/-! ## The formatter steps of `main` (lines 122-133) -/

/-- `lines = [l.strip() for l in txt.splitlines() if l.strip()]`. -/
def fmtLines (txt : List Char) : List (List Char) :=
  ((splitlines txt).map pyStrip).filter (fun l => !l.isEmpty)

/-- `title = lines[0] if lines else PRIMARY_KEYWORD`. -/
def fmtTitle (kw txt : List Char) : List Char :=
  match fmtLines txt with
  | [] => kw
  | t :: _ => t

/-- `body = "\n".join(lines[1:]) if len(lines) > 1 else ""`. -/
def rawBody (txt : List Char) : List Char :=
  let lines := fmtLines txt
  if lines.length > 1 then joinNl lines.tail else []

/-- The paragraph-wrapping step: if `"<p>" not in body and "<h" not in
body`, split on `"\n\n"`, keep the pieces with non-blank content, and wrap
each in `<p>…</p>`; otherwise leave the body as it is. -/
def wrapStep (b : List Char) : List Char :=
  if !containsSub b (str "<p>") && !containsSub b (str "<h") then
    joinNl (((splitBlank b []).filter (fun p => !(pyStrip p).isEmpty)).map
      (fun p => str "<p>" ++ p ++ str "</p>"))
  else b

/-- The body after the wrapping step (the `body` in scope at line 130). -/
def wrappedBody (txt : List Char) : List Char :=
  wrapStep (rawBody txt)

/-- `excerpt = body[:140]`. -/
def fmtExcerpt (txt : List Char) : List Char :=
  (wrappedBody txt).take 140

/-- The marker-append step: `if "<!-- AUTO_GENERATED -->" not in body:
body += "\n\n<!-- AUTO_GENERATED -->"`. -/
def addMarker (b : List Char) : List Char :=
  if containsSub b marker then b else b ++ str "\n\n" ++ marker

/-- The body string passed to `post_to_wp`. -/
def finalBody (txt : List Char) : List Char :=
  addMarker (wrappedBody txt)

/-! ## The publish / image-attach section of `main` (lines 135-154)

External calls are again driven by an environment of outcomes; the trace
records, in order, each request issued and each message printed. -/

/-- Observable steps of the publish/image section of `main`. -/
inductive Act
  | publish (title body excerpt : List Char)
  | printDraftCreated (pid : Option Int)
  | fetchImage (url : List Char)
  | uploadMedia
  | updateFeatured (pid mid : Option Int)
  | printFeaturedSet
  | logImageFailed
  | logPostFailed
deriving DecidableEq, Repr

/-- Environment for the WordPress / image calls of one run.  For each call,
`none` means it raises (network error, or `raise_for_status` on a
non-success HTTP status).  A successful `post_to_wp` / media upload yields
`res.get("id")`, modelled as `Option Int` (`none` = no `"id"` field in the
response JSON). -/
structure WpEnv where
  /-- Outcome of `post_to_wp` (`some pid` = HTTP success with `res.get("id") = pid`). -/
  publishResult : Option (Option Int)
  /-- Outcome of `fetch_unsplash_image`. -/
  fetchResult : Option Unit
  /-- Outcome of `upload_media_to_wp` (`some mid` = success with `media.get("id") = mid`). -/
  uploadResult : Option (Option Int)
  /-- Outcome of the featured-media update request's `raise_for_status`. -/
  updateResult : Option Unit
deriving DecidableEq, Repr

/-- Python truthiness of `res.get("id")`: `None` and `0` are falsy. -/
def truthy : Option Int → Bool
  | none => false
  | some n => n != 0

/-- `f"https://source.unsplash.com/1200x630/?{requests.utils.quote(query)}"`. -/
def unsplashUrl (query : List Char) : List Char :=
  str "https://source.unsplash.com/1200x630/?" ++ quote query

/-- The query `main` passes to `fetch_unsplash_image` (line 141): the
literal `"saas dashboard"`. -/
def mainImageQuery : List Char := str "saas dashboard"

/-- The inner `try` block of `main` (lines 140-150): fetch the image,
upload it, and — when both identifiers are truthy — set `featured_media`.
Returns the trace of issued requests and `Except.error ()` when a step
raised (to be caught by the inner `except`). -/
def imagePipeline (env : WpEnv) (pid : Option Int) : List Act × Except Unit Unit :=
  match env.fetchResult with
  | none => ([Act.fetchImage (unsplashUrl mainImageQuery)], Except.error ())
  | some _ =>
    match env.uploadResult with
    | none => ([Act.fetchImage (unsplashUrl mainImageQuery), Act.uploadMedia], Except.error ())
    | some mid =>
      if truthy pid && truthy mid then
        match env.updateResult with
        | none =>
            ([Act.fetchImage (unsplashUrl mainImageQuery), Act.uploadMedia,
              Act.updateFeatured pid mid], Except.error ())
        | some _ =>
            ([Act.fetchImage (unsplashUrl mainImageQuery), Act.uploadMedia,
              Act.updateFeatured pid mid, Act.printFeaturedSet], Except.ok ())
      else ([Act.fetchImage (unsplashUrl mainImageQuery), Act.uploadMedia], Except.ok ())

/-- The publish/image section of `main`, after the formatter has produced
title, body and excerpt from the generated text `txt`.  The outer
`try`/`except` turns a publish failure into a `logPostFailed` message; the
inner `except` turns any image-pipeline exception into `logImageFailed`.
The second component is the exception state `main` leaves in — `Except.ok`
on every path, since both handlers catch `Exception`. -/
def mainAfterGen (kw txt : List Char) (env : WpEnv) : List Act × Except Unit Unit :=
  let title := fmtTitle kw txt
  let body := finalBody txt
  let excerpt := fmtExcerpt txt
  match env.publishResult with
  | none => ([Act.publish title body excerpt, Act.logPostFailed], Except.ok ())
  | some pid =>
    let res := imagePipeline env pid
    (Act.publish title body excerpt :: Act.printDraftCreated pid :: res.1 ++
      (match res.2 with
       | Except.error _ => [Act.logImageFailed]
       | Except.ok _ => []),
     Except.ok ())

/-- A whole run of `main`: generation (which never raises) followed by the
formatter and the publish/image section. -/
def mainRun (genv : GenEnv) (wenv : WpEnv) (kw aff : List Char) :
    List Act × Except Unit Unit :=
  mainAfterGen kw (generate_content genv kw aff).1 wenv

/-- Is this act the image-fetch request? -/
def isFetchAct : Act → Bool
  | Act.fetchImage _ => true
  | _ => false

/-- Is this act the media-upload request? -/
def isUploadAct : Act → Bool
  | Act.uploadMedia => true
  | _ => false

/-- Is this act the featured-media update request? -/
def isUpdateAct : Act → Bool
  | Act.updateFeatured _ _ => true
  | _ => false

/-- The urls of all image-fetch requests in a trace, in order. -/
def fetchUrls (tr : List Act) : List (List Char) :=
  tr.filterMap (fun a =>
    match a with
    | Act.fetchImage u => some u
    | _ => none)

/-- Default value of the `PRIMARY_KEYWORD` environment variable. -/
def kwDefault : List Char := str "best marketing automation tools 2025"

/-- Default value of the `AFF_LINK` environment variable. -/
def affDefault : List Char := str "https://affiliate.example/?ref=you"

/-- No occurrence of `pat` can start inside the segment `t`, whatever text
follows `t`: every suffix of `t` at least as long as `pat` does not begin
with `pat`, and every shorter suffix is not a prefix of `pat` (so it cannot
be completed to `pat` by any continuation). -/
def noOccStart : List Char → List Char → Bool
  | [], _ => true
  | c :: t, pat =>
      (if pat.length ≤ (c :: t).length then !(pat.isPrefixOf (c :: t))
       else !((c :: t).isPrefixOf pat)) && noOccStart t pat

/-- No nonempty proper tail of `pat` is a prefix of `seg`: an occurrence of
`pat` cannot resume inside `seg` after starting earlier. -/
def noTailPrefixOf : List Char → List Char → Bool
  | [], _ => true
  | [_], _ => true
  | _ :: d :: rest, seg => !((d :: rest).isPrefixOf seg) && noTailPrefixOf (d :: rest) seg

/-! ## Helper lemmas -/

theorem isPrefixOf_append_self (x b : List Char) : x.isPrefixOf (x ++ b) = true := by
  induction x with
  | nil => simp [List.isPrefixOf]
  | cons c cs ih => simp [List.isPrefixOf, ih]

theorem containsSub_append_right (a x b : List Char) :
    containsSub (a ++ (x ++ b)) x = true := by
  induction a with
  | nil =>
    rw [List.nil_append]
    cases h : x ++ b with
    | nil =>
      have hx : x = [] := by
        cases x with
        | nil => rfl
        | cons c cs => simp at h
      subst hx
      simp [containsSub]
    | cons c rest =>
      rw [containsSub, ← h, isPrefixOf_append_self, Bool.true_or]
  | cons c a ih =>
    rw [List.cons_append, containsSub, ih, Bool.or_true]

theorem containsSub_of_split (x s a b : List Char) (h : s = a ++ (x ++ b)) :
    containsSub s x = true := h ▸ containsSub_append_right a x b

theorem isPrefixOf_append_of_length_le :
    ∀ (l a b : List Char), l.length ≤ a.length →
      l.isPrefixOf (a ++ b) = l.isPrefixOf a
  | [], _, _, _ => by simp [List.isPrefixOf]
  | c :: l, [], b, h => by simp at h
  | c :: l, d :: a', b, h => by
    simp only [List.cons_append, List.isPrefixOf, List.append_eq]
    rw [isPrefixOf_append_of_length_le l a' b (by simpa using h)]

theorem isPrefixOf_of_append_isPrefixOf :
    ∀ (s pat rest : List Char), s.length ≤ pat.length →
      pat.isPrefixOf (s ++ rest) = true → s.isPrefixOf pat = true
  | [], _, _, _, _ => by simp [List.isPrefixOf]
  | c :: s', [], _, h, _ => by simp at h
  | c :: s', d :: pat', rest, h, hp => by
    simp only [List.cons_append, List.isPrefixOf, Bool.and_eq_true, beq_iff_eq] at hp ⊢
    exact ⟨hp.1.symm, isPrefixOf_of_append_isPrefixOf s' pat' rest (by simpa using h) hp.2⟩

theorem drop_isPrefixOf_of_append_isPrefixOf :
    ∀ (s pat rest : List Char), pat.isPrefixOf (s ++ rest) = true →
      (pat.drop s.length).isPrefixOf rest = true
  | [], pat, rest, h => by simpa using h
  | c :: s', [], rest, h => by simp [List.drop_nil, List.isPrefixOf]
  | c :: s', d :: pat', rest, h => by
    simp only [List.cons_append, List.isPrefixOf, Bool.and_eq_true] at h
    simpa [List.length_cons, List.drop_succ_cons] using
      drop_isPrefixOf_of_append_isPrefixOf s' pat' rest h.2

theorem noTailPrefixOf_spec :
    ∀ (pat seg : List Char), noTailPrefixOf pat seg = true →
      ∀ k, 1 ≤ k → k < pat.length → (pat.drop k).isPrefixOf seg = false
  | [], _, _, k, _, hk2 => absurd hk2 (Nat.not_lt_zero k)
  | [c], _, _, k, hk1, hk2 => by
    have h1 : k < 1 := hk2
    omega
  | c :: d :: rest, seg, h, k, hk1, hk2 => by
    rw [noTailPrefixOf, Bool.and_eq_true] at h
    cases k with
    | zero => omega
    | succ k' =>
      cases k' with
      | zero =>
        show (d :: rest).isPrefixOf seg = false
        simpa using h.1
      | succ k'' =>
        have hlen : k'' + 1 < (d :: rest).length := by
          have h2 := hk2
          simp only [List.length_cons] at h2 ⊢
          omega
        exact noTailPrefixOf_spec (d :: rest) seg h.2 (k'' + 1) (by omega) hlen

/-- Peel a variable text `x` off the front of a `countSub`: no occurrence of
`pat` lies inside `x` and no nonempty proper tail of `pat` can resume in
`rest`, so no occurrence starts inside `x` at all. -/
theorem countSub_peel_var (pat rest : List Char)
    (hcont : ∀ k, 1 ≤ k → k < pat.length → (pat.drop k).isPrefixOf rest = false) :
    ∀ (x : List Char), containsSub x pat = false →
      countSub (x ++ rest) pat = countSub rest pat := by
  intro x
  induction x with
  | nil => intro _; rfl
  | cons c x' ih =>
    intro hx
    rw [containsSub, Bool.or_eq_false_iff] at hx
    have hpre : pat.isPrefixOf (c :: (x' ++ rest)) = false := by
      cases hq : pat.isPrefixOf (c :: (x' ++ rest)) with
      | false => rfl
      | true =>
        exfalso
        by_cases hlen : pat.length ≤ (c :: x').length
        · have h1 : pat.isPrefixOf (c :: x') = true := by
            rw [← isPrefixOf_append_of_length_le pat (c :: x') rest hlen,
              List.cons_append]
            exact hq
          have h2 := hx.1
          rw [h1] at h2
          simp at h2
        · have hk2 : (c :: x').length < pat.length := Nat.not_le.mp hlen
          have h2 : (pat.drop (c :: x').length).isPrefixOf rest = true := by
            apply drop_isPrefixOf_of_append_isPrefixOf
            rw [List.cons_append]
            exact hq
          rw [hcont _ (by simp) hk2] at h2
          simp at h2
    rw [List.cons_append, countSub, hpre, if_neg (by simp), Nat.zero_add]
    exact ih hx.2

/-- Peel a literal segment `t` off the front of a `countSub`: `noOccStart`
rules out every occurrence of `pat` starting inside `t`, whatever `rest`
is. -/
theorem countSub_peel_seg (pat rest : List Char) :
    ∀ (t : List Char), noOccStart t pat = true →
      countSub (t ++ rest) pat = countSub rest pat := by
  intro t
  induction t with
  | nil => intro _; rfl
  | cons c t' ih =>
    intro h
    rw [noOccStart, Bool.and_eq_true] at h
    have hpre : pat.isPrefixOf (c :: (t' ++ rest)) = false := by
      cases hq : pat.isPrefixOf (c :: (t' ++ rest)) with
      | false => rfl
      | true =>
        exfalso
        by_cases hlen : pat.length ≤ (c :: t').length
        · have h1 : pat.isPrefixOf (c :: t') = true := by
            rw [← isPrefixOf_append_of_length_le pat (c :: t') rest hlen,
              List.cons_append]
            exact hq
          have h2 := h.1
          rw [if_pos hlen, h1] at h2
          simp at h2
        · have h1 : (c :: t').isPrefixOf pat = true := by
            apply isPrefixOf_of_append_isPrefixOf (c :: t') pat rest
              (Nat.le_of_lt (Nat.not_le.mp hlen))
            rw [List.cons_append]
            exact hq
          have h2 := h.1
          rw [if_neg hlen, h1] at h2
          simp at h2
    rw [List.cons_append, countSub, hpre, if_neg (by simp), Nat.zero_add]
    exact ih h.2

/-- Continuation condition at a `seg ++ rest` boundary: for the 23-character
marker, a tail resuming in `seg ++ rest` would have to resume inside `seg`
whenever `seg` has at least 22 characters. -/
theorem marker_tail_blocked (seg rest : List Char) (hlen : 22 ≤ seg.length)
    (hnt : noTailPrefixOf marker seg = true) :
    ∀ k, 1 ≤ k → k < marker.length →
      (marker.drop k).isPrefixOf (seg ++ rest) = false := by
  intro k hk1 hk2
  have hm : marker.length = 23 := rfl
  have hd : (marker.drop k).length ≤ seg.length := by
    rw [List.length_drop]
    omega
  rw [isPrefixOf_append_of_length_le _ _ _ hd]
  exact noTailPrefixOf_spec marker seg hnt k hk1 hk2

theorem firstLine_append (t s : List Char) (h : '\n' ∉ t) :
    firstLine (t ++ '\n' :: s) = t := by
  induction t with
  | nil => rfl
  | cons c t ih =>
    have hc : c ≠ '\n' := fun hc => h (hc ▸ List.mem_cons_self c t)
    have ht : '\n' ∉ t := fun hm => h (List.mem_cons_of_mem c hm)
    simp only [firstLine, List.cons_append, List.takeWhile_cons]
    rw [if_pos (by simpa using hc)]
    simpa [firstLine] using ih ht

theorem afterFirstLine_append (t s : List Char) (h : '\n' ∉ t) :
    afterFirstLine (t ++ '\n' :: s) = '\n' :: s := by
  induction t with
  | nil => rfl
  | cons c t ih =>
    have hc : c ≠ '\n' := fun hc => h (hc ▸ List.mem_cons_self c t)
    have ht : '\n' ∉ t := fun hm => h (List.mem_cons_of_mem c hm)
    simp only [afterFirstLine, List.cons_append, List.dropWhile_cons]
    rw [if_pos (by simpa using hc)]
    simpa [afterFirstLine] using ih ht

theorem addMarker_of_contains (b : List Char) (h : containsSub b marker = true) :
    addMarker b = b := by
  simp [addMarker, h]

theorem containsSub_addMarker (b : List Char) :
    containsSub (addMarker b) marker = true := by
  by_cases h : containsSub b marker = true
  · rw [addMarker_of_contains b h]; exact h
  · have : addMarker b = b ++ str "\n\n" ++ marker := by
      simp [addMarker, h]
    rw [this]
    exact containsSub_of_split marker _ (b ++ str "\n\n") []
      (by rw [List.append_nil])

/-- Literal text of `fallback_generate` between the title's keyword and the
body's keyword. -/
def segTitleIntro : List Char :=
  str " — A practical guide\n\n<h2>Introduction</h2><p>This article provides a concise overview for '"

/-- Literal text of `fallback_generate` between the body's keyword and the
affiliate link. -/
def segMid : List Char :=
  str "'.</p><h2>Top picks</h2><ul><li>Tool A — Good for small teams</li><li>Tool B — Good for enterprise</li></ul><p>For more details and an affiliate offer, visit "

/-- Literal text of `fallback_generate` between the affiliate link and the
completion marker. -/
def segEnd : List Char := str "</p>\n\n"

/-- The fallback text decomposed around its variable parts: keyword, literal
text, keyword, literal text, affiliate link, literal text, marker. -/
theorem fallback_decomp (kw aff : List Char) :
    fallback_generate kw aff =
      kw ++ (segTitleIntro ++ (kw ++ (segMid ++ (aff ++ (segEnd ++ marker))))) := by
  simp only [fallback_generate, fallbackTitle, fallbackBody, List.append_assoc]
  rfl

theorem countSub_fallback_marker (kw aff : List Char)
    (hkw : containsSub kw marker = false) (haff : containsSub aff marker = false) :
    countSub (fallback_generate kw aff) marker = 1 := by
  rw [fallback_decomp]
  rw [countSub_peel_var marker _
    (marker_tail_blocked segTitleIntro _ (by decide) (by decide)) kw hkw]
  rw [countSub_peel_seg marker _ segTitleIntro (by decide)]
  rw [countSub_peel_var marker _
    (marker_tail_blocked segMid _ (by decide) (by decide)) kw hkw]
  rw [countSub_peel_seg marker _ segMid (by decide)]
  rw [countSub_peel_var marker _
    (noTailPrefixOf_spec marker (segEnd ++ marker) (by decide)) aff haff]
  rw [countSub_peel_seg marker _ segEnd (by decide)]
  decide

theorem fetchImage_mem_imagePipeline (env : WpEnv) (pid : Option Int) (u : List Char)
    (h : Act.fetchImage u ∈ (imagePipeline env pid).1) :
    u = unsplashUrl mainImageQuery := by
  rcases env with ⟨p, f, ul, r⟩
  cases f with
  | none => simpa [imagePipeline] using h
  | some fv =>
    cases ul with
    | none => simpa [imagePipeline] using h
    | some mid =>
      cases htm : truthy pid && truthy mid with
      | false => simpa [imagePipeline, htm] using h
      | true =>
        cases r with
        | none => simpa [imagePipeline, htm] using h
        | some rv => simpa [imagePipeline, htm] using h

theorem fetchImage_mem_mainAfterGen (kw txt : List Char) (env : WpEnv) (u : List Char)
    (h : Act.fetchImage u ∈ (mainAfterGen kw txt env).1) :
    u = unsplashUrl mainImageQuery := by
  cases hp : env.publishResult with
  | none => simp [mainAfterGen, hp] at h
  | some pid =>
    cases hr : (imagePipeline env pid).2 with
    | error e =>
      simp only [mainAfterGen, hp, hr] at h
      simp at h
      exact fetchImage_mem_imagePipeline env pid u h
    | ok v =>
      simp only [mainAfterGen, hp, hr] at h
      simp at h
      exact fetchImage_mem_imagePipeline env pid u h

/-! ## Claims -/

/-- C1, counterexample: with `OPENAI_API_KEY` and `HF_TOKEN` both configured
and the `call_openai` call raising, `generate_content` falls back directly to
the local template — the Hugging Face tier is never attempted, contradicting
the claimed primary → secondary → local order. -/
theorem openai_failure_skips_hf_cex :
    (GenEnv.mk true true none (some (str "hf text"))).openaiKey = true ∧
    (GenEnv.mk true true none (some (str "hf text"))).openaiResult = none ∧
    (GenEnv.mk true true none (some (str "hf text"))).hfToken = true ∧
    (generate_content (GenEnv.mk true true none (some (str "hf text")))
        kwDefault affDefault).2 = [Tier.openai, Tier.fallbackLocal] ∧
    Tier.hf ∉ (generate_content (GenEnv.mk true true none (some (str "hf text")))
        kwDefault affDefault).2 := by
  decide

/-- C1, amended: in every run in which the primary backend is configured and
its call raises, `generate_content` answers with the local deterministic
template directly; the secondary backend is not attempted (it is attempted
only when the primary credential is absent). -/
theorem openai_failure_falls_back_locally (env : GenEnv) (kw aff : List Char)
    (h1 : env.openaiKey = true) (h2 : env.openaiResult = none) :
    generate_content env kw aff =
      (fallback_generate kw aff, [Tier.openai, Tier.fallbackLocal]) ∧
    Tier.hf ∉ (generate_content env kw aff).2 := by
  have hg : generate_content env kw aff =
      (fallback_generate kw aff, [Tier.openai, Tier.fallbackLocal]) := by
    simp [generate_content, h1, h2]
  exact ⟨hg, by rw [hg]; simp⟩

/-- C1, witness for the amended theorem: the counterexample environment. -/
theorem openai_failure_falls_back_locally_witness :
    generate_content (GenEnv.mk true true none (some (str "hf text")))
        kwDefault affDefault =
      (fallback_generate kwDefault affDefault, [Tier.openai, Tier.fallbackLocal]) ∧
    Tier.hf ∉ (generate_content (GenEnv.mk true true none (some (str "hf text")))
        kwDefault affDefault).2 :=
  openai_failure_falls_back_locally _ kwDefault affDefault rfl rfl

/-- C2, counterexample: in a fully successful run with the default
generation keyword, the single image-fetch URL is the fixed
`saas dashboard` Unsplash URL and does not contain the URL-quoted
generation keyword. -/
theorem image_url_ignores_keyword_cex :
    fetchUrls (mainRun (GenEnv.mk true false (some (str "Title\nBody")) none)
        (WpEnv.mk (some (some 42)) (some ()) (some (some 7)) (some ()))
        kwDefault affDefault).1 = [unsplashUrl mainImageQuery] ∧
    containsSub (unsplashUrl mainImageQuery) (quote kwDefault) = false := by
  decide

/-- C2, amended: every image-fetch request issued by `main` uses the URL
built from the fixed query `"saas dashboard"` — which therefore contains
that query URL-quoted — regardless of the generation keyword. -/
theorem image_url_contains_quoted_fixed_query (kw txt : List Char) (env : WpEnv)
    (u : List Char) (h : Act.fetchImage u ∈ (mainAfterGen kw txt env).1) :
    u = unsplashUrl mainImageQuery ∧
    containsSub u (quote mainImageQuery) = true := by
  have hu : u = unsplashUrl mainImageQuery := fetchImage_mem_mainAfterGen kw txt env u h
  refine ⟨hu, ?_⟩
  rw [hu]
  exact containsSub_of_split _ _ (str "https://source.unsplash.com/1200x630/?") []
    (by rw [List.append_nil]; rfl)

/-- C2, witness for the amended theorem: a fully successful run. -/
theorem image_url_contains_quoted_fixed_query_witness :
    unsplashUrl mainImageQuery = unsplashUrl mainImageQuery ∧
    containsSub (unsplashUrl mainImageQuery) (quote mainImageQuery) = true :=
  image_url_contains_quoted_fixed_query (str "k") (str "Title\nBody")
    (WpEnv.mk (some (some 42)) (some ()) (some (some 7)) (some ()))
    (unsplashUrl mainImageQuery) (by decide)

/-- C3 (confirmed): when the post-creation call fails, the run logs the
failure and issues none of the image-pipeline requests (no image fetch, no
media upload, no featured-media update). -/
theorem publish_failure_stops_run (kw txt : List Char) (env : WpEnv)
    (h : env.publishResult = none) :
    Act.logPostFailed ∈ (mainAfterGen kw txt env).1 ∧
    (mainAfterGen kw txt env).1.any isFetchAct = false ∧
    (mainAfterGen kw txt env).1.any isUploadAct = false ∧
    (mainAfterGen kw txt env).1.any isUpdateAct = false := by
  refine ⟨?_, ?_, ?_, ?_⟩ <;>
    simp [mainAfterGen, h, isFetchAct, isUploadAct, isUpdateAct]

/-- C3, witness: a run whose publish call raises. -/
theorem publish_failure_stops_run_witness :
    Act.logPostFailed ∈
      (mainAfterGen (str "k") (str "t")
        (WpEnv.mk none (some ()) (some (some 1)) (some ()))).1 ∧
    (mainAfterGen (str "k") (str "t")
        (WpEnv.mk none (some ()) (some (some 1)) (some ()))).1.any isFetchAct = false ∧
    (mainAfterGen (str "k") (str "t")
        (WpEnv.mk none (some ()) (some (some 1)) (some ()))).1.any isUploadAct = false ∧
    (mainAfterGen (str "k") (str "t")
        (WpEnv.mk none (some ()) (some (some 1)) (some ()))).1.any isUpdateAct = false :=
  publish_failure_stops_run (str "k") (str "t")
    (WpEnv.mk none (some ()) (some (some 1)) (some ())) rfl

/-- C4 (confirmed): when the post-creation call succeeds, the run reports
the created post identifier, `main` ends without any exception propagating
(its exception state is `ok` whatever the image pipeline does), and if the
image pipeline raises, the failure is caught and logged inside the run. -/
theorem image_failure_recovered (kw txt : List Char) (env : WpEnv) (pid : Option Int)
    (h : env.publishResult = some pid) :
    Act.printDraftCreated pid ∈ (mainAfterGen kw txt env).1 ∧
    (mainAfterGen kw txt env).2 = Except.ok () ∧
    ((imagePipeline env pid).2 = Except.error () →
      Act.logImageFailed ∈ (mainAfterGen kw txt env).1) := by
  refine ⟨?_, ?_, ?_⟩
  · simp [mainAfterGen, h]
  · simp [mainAfterGen, h]
  · intro he
    simp [mainAfterGen, h, he]

/-- C4, witness: publish succeeds with post id 42 and the image fetch raises;
the run still reports id 42, ends in the `ok` state, and logs the image
failure. -/
theorem image_failure_recovered_witness :
    Act.printDraftCreated (some 42) ∈
      (mainAfterGen (str "k") (str "t")
        (WpEnv.mk (some (some 42)) none (some (some 7)) (some ()))).1 ∧
    (mainAfterGen (str "k") (str "t")
        (WpEnv.mk (some (some 42)) none (some (some 7)) (some ()))).2 = Except.ok () ∧
    Act.logImageFailed ∈
      (mainAfterGen (str "k") (str "t")
        (WpEnv.mk (some (some 42)) none (some (some 7)) (some ()))).1 := by
  have h := image_failure_recovered (str "k") (str "t")
    (WpEnv.mk (some (some 42)) none (some (some 7)) (some ())) (some 42) rfl
  exact ⟨h.1, h.2.1, h.2.2 rfl⟩

/-- C5, counterexample: with a keyword configuration that itself contains
the completion marker, the fallback text contains the marker three times,
not exactly once — the claim fails for that keyword/affiliate-link
configuration. -/
theorem fallback_marker_not_unique_cex :
    countSub (fallback_generate marker affDefault) marker = 3 ∧
    countSub (fallback_generate marker affDefault) marker ≠ 1 := by
  decide

/-- C5, amended: for every keyword and affiliate-link configuration in which
neither value contains the completion marker, the fallback generator
succeeds and returns the title followed by the non-empty body, the body
contains the keyword and the affiliate link, and the completion marker
occurs exactly once in the returned text; when the keyword moreover
contains no newline, the first line of the returned text is exactly the
title. -/
theorem fallback_generate_structure (kw aff : List Char)
    (hkw : containsSub kw marker = false) (haff : containsSub aff marker = false) :
    ('\n' ∉ kw → firstLine (fallback_generate kw aff) = fallbackTitle kw) ∧
    ('\n' ∉ kw → afterFirstLine (fallback_generate kw aff) =
      str "\n\n" ++ (fallbackBody kw aff ++ (str "\n\n" ++ marker))) ∧
    fallbackBody kw aff ≠ [] ∧
    containsSub (fallbackBody kw aff) kw = true ∧
    containsSub (fallbackBody kw aff) aff = true ∧
    countSub (fallback_generate kw aff) marker = 1 := by
  have hsplit : fallback_generate kw aff =
      fallbackTitle kw ++
        '\n' :: ('\n' :: (fallbackBody kw aff ++ (str "\n\n" ++ marker))) := by
    simp only [fallback_generate, List.append_assoc]
    rfl
  have hT : '\n' ∉ kw → '\n' ∉ fallbackTitle kw := by
    intro hnl hm
    rcases List.mem_append.mp hm with hm | hm
    · exact hnl hm
    · exact absurd hm (by decide)
  refine ⟨?_, ?_, ?_, ?_, ?_, ?_⟩
  · intro hnl
    rw [hsplit]
    exact firstLine_append _ _ (hT hnl)
  · intro hnl
    rw [hsplit, afterFirstLine_append _ _ (hT hnl)]
    rfl
  · intro hc
    rcases List.append_eq_nil.mp hc with ⟨-, h2⟩
    exact absurd h2 (by decide)
  · refine containsSub_of_split kw _
      (str "<h2>Introduction</h2><p>This article provides a concise overview for '")
      (segMid ++ (aff ++ str "</p>")) ?_
    simp only [fallbackBody, segMid, List.append_assoc]
    rfl
  · refine containsSub_of_split aff _
      (str "<h2>Introduction</h2><p>This article provides a concise overview for '"
        ++ (kw ++ segMid))
      (str "</p>") ?_
    simp only [fallbackBody, segMid, List.append_assoc]
    rfl
  · exact countSub_fallback_marker kw aff hkw haff

/-- C5, witness for the amended theorem: the default keyword and affiliate
link. -/
theorem fallback_generate_structure_witness :
    firstLine (fallback_generate kwDefault affDefault) = fallbackTitle kwDefault ∧
    afterFirstLine (fallback_generate kwDefault affDefault) =
      str "\n\n" ++ (fallbackBody kwDefault affDefault ++ (str "\n\n" ++ marker)) ∧
    fallbackBody kwDefault affDefault ≠ [] ∧
    containsSub (fallbackBody kwDefault affDefault) kwDefault = true ∧
    containsSub (fallbackBody kwDefault affDefault) affDefault = true ∧
    countSub (fallback_generate kwDefault affDefault) marker = 1 := by
  have h := fallback_generate_structure kwDefault affDefault (by decide) (by decide)
  exact ⟨h.1 (by decide), h.2.1 (by decide), h.2.2.1, h.2.2.2.1,
    h.2.2.2.2.1, h.2.2.2.2.2⟩

/-- C6 (confirmed): `main` passes the formatter's final body to the
post-creation call (the first trace entry is the publish request carrying
it), and that body always contains the completion marker. -/
theorem publish_body_contains_marker (kw txt : List Char) (env : WpEnv) :
    (mainAfterGen kw txt env).1.head? =
      some (Act.publish (fmtTitle kw txt) (finalBody txt) (fmtExcerpt txt)) ∧
    containsSub (finalBody txt) marker = true := by
  constructor
  · cases h : env.publishResult <;> simp [mainAfterGen, h]
  · exact containsSub_addMarker (wrappedBody txt)

/-- C7 (confirmed): the excerpt is exactly the first 140 characters of the
body in scope at the excerpt assignment (a hard prefix truncation): its
length never exceeds 140, it is a prefix of that body, and it has length
exactly 140 whenever the body is long enough. -/
theorem excerpt_hard_truncation (txt : List Char) :
    fmtExcerpt txt = (wrappedBody txt).take 140 ∧
    (fmtExcerpt txt).length ≤ 140 ∧
    fmtExcerpt txt <+: wrappedBody txt ∧
    (140 ≤ (wrappedBody txt).length → (fmtExcerpt txt).length = 140) := by
  refine ⟨rfl, ?_, ?_, ?_⟩
  · rw [fmtExcerpt, List.length_take]
    exact min_le_left _ _
  · exact List.take_prefix 140 (wrappedBody txt)
  · intro h
    rw [fmtExcerpt, List.length_take]
    exact Nat.min_eq_left h

/-- C7, witness: a generated text whose body is longer than 140 characters;
the excerpt has length exactly 140. -/
theorem excerpt_hard_truncation_witness :
    (fmtExcerpt (str "Title" ++ '\n' :: List.replicate 150 'a')).length ≤ 140 ∧
    (fmtExcerpt (str "Title" ++ '\n' :: List.replicate 150 'a')).length = 140 :=
  ⟨(excerpt_hard_truncation (str "Title" ++ '\n' :: List.replicate 150 'a')).2.1,
   (excerpt_hard_truncation (str "Title" ++ '\n' :: List.replicate 150 'a')).2.2.2
     (by decide)⟩

/-- C8 (confirmed): the marker-append step is idempotent — applying it twice
equals applying it once, and a body that already contains the marker is
returned unchanged. -/
theorem marker_append_idempotent (b : List Char) :
    addMarker (addMarker b) = addMarker b ∧
    (containsSub b marker = true → addMarker b = b) :=
  ⟨addMarker_of_contains _ (containsSub_addMarker b), addMarker_of_contains b⟩

/-- C8, witness: a body already containing the marker is returned unchanged
and a second application changes nothing. -/
theorem marker_append_idempotent_witness :
    addMarker (addMarker (str "x <!-- AUTO_GENERATED --> y")) =
      addMarker (str "x <!-- AUTO_GENERATED --> y") ∧
    addMarker (str "x <!-- AUTO_GENERATED --> y") =
      str "x <!-- AUTO_GENERATED --> y" :=
  ⟨(marker_append_idempotent (str "x <!-- AUTO_GENERATED --> y")).1,
   (marker_append_idempotent (str "x <!-- AUTO_GENERATED --> y")).2 (by decide)⟩

/-- C9 (confirmed): when the parsed body already contains paragraph markup
(`<p>`) or heading markup (`<h`), the wrapping step leaves it unchanged. -/
theorem wrap_preserves_markup (txt : List Char)
    (h : containsSub (rawBody txt) (str "<p>") = true ∨
         containsSub (rawBody txt) (str "<h") = true) :
    wrappedBody txt = rawBody txt := by
  rcases h with h | h <;> simp [wrappedBody, wrapStep, h]

/-- C9, witness: a generated text whose body line already carries `<p>`
markup passes through the wrapping step unchanged. -/
theorem wrap_preserves_markup_witness :
    wrappedBody (str "T\n<p>already marked up</p>") =
      rawBody (str "T\n<p>already marked up</p>") :=
  wrap_preserves_markup (str "T\n<p>already marked up</p>") (Or.inl (by decide))

/-- C10 (confirmed): after a successful publish, image fetch and media
upload, the featured-media update request is issued exactly when both
`res.get("id")` and `media.get("id")` are truthy; when either is absent or
falsy the link step is skipped silently — no update request, no logged
image failure, and `main` still ends in the `ok` state. -/
theorem featured_update_requires_both_ids (kw txt : List Char) (env : WpEnv)
    (pid mid : Option Int) (hpub : env.publishResult = some pid)
    (hfet : env.fetchResult = some ()) (hupl : env.uploadResult = some mid) :
    (mainAfterGen kw txt env).1.any isUpdateAct = (truthy pid && truthy mid) ∧
    ((truthy pid && truthy mid) = false →
      Act.logImageFailed ∉ (mainAfterGen kw txt env).1 ∧
      (mainAfterGen kw txt env).2 = Except.ok ()) := by
  cases htm : truthy pid && truthy mid with
  | false =>
    refine ⟨?_, fun _ => ⟨?_, ?_⟩⟩
    · simp [mainAfterGen, imagePipeline, hpub, hfet, hupl, htm, isUpdateAct]
    · simp [mainAfterGen, imagePipeline, hpub, hfet, hupl, htm]
    · simp [mainAfterGen, hpub]
  | true =>
    refine ⟨?_, fun hc => absurd hc (by simp)⟩
    cases hr : env.updateResult with
    | none =>
      simp [mainAfterGen, imagePipeline, hpub, hfet, hupl, htm, hr, isUpdateAct]
    | some rv =>
      simp [mainAfterGen, imagePipeline, hpub, hfet, hupl, htm, hr, isUpdateAct]

/-- C10, witness: publish succeeds but its response JSON has no `id`
(`post_id = None`) while the media upload returns id 7; the link step is
silently skipped. -/
theorem featured_update_requires_both_ids_witness :
    (mainAfterGen (str "k") (str "t")
        (WpEnv.mk (some none) (some ()) (some (some 7)) (some ()))).1.any
      isUpdateAct = false ∧
    Act.logImageFailed ∉
      (mainAfterGen (str "k") (str "t")
        (WpEnv.mk (some none) (some ()) (some (some 7)) (some ()))).1 ∧
    (mainAfterGen (str "k") (str "t")
        (WpEnv.mk (some none) (some ()) (some (some 7)) (some ()))).2 =
      Except.ok () := by
  have h := featured_update_requires_both_ids (str "k") (str "t")
    (WpEnv.mk (some none) (some ()) (some (some 7)) (some ())) none (some 7)
    rfl rfl rfl
  exact ⟨h.1.trans (by decide), (h.2 (by decide)).1, (h.2 (by decide)).2⟩

end GeneratePost
